import Mathlib

/-!
Verification of the precursor-analysis pipeline of
`src/app_analise_precursores.py`.

Strings are modelled as lists of Unicode code points (`UStr`), so that the
behaviour of `unicodedata.normalize("NFKD", ·)`, `unicodedata.combining`,
`str.lower`, and `str.strip` can be made explicit.  The character-level data
those library calls consult (decomposition mapping, canonical combining
classes, lower-case mapping, whitespace predicate) is packaged in a
`UnicodeData` parameter; properties guaranteed by the Unicode character
database that some theorems need are stated explicitly in `GoodUnicode`.
The fuzzy scoring function `fuzz.partial_ratio` is likewise an explicit
parameter `pr : UStr → UStr → Nat` (it returns an integer score 0–100).
-/

namespace Precursores

/-- A Unicode code point. -/
abbrev UChar := Nat

/-- A Python string, modelled as its sequence of code points. -/
abbrev UStr := List UChar

/-- The character-level data consulted by the Python standard library calls
used in `normalize`, `str.strip` and `str.lower`. -/
structure UnicodeData where
  /-- Full compatibility (NFKD) decomposition of one code point, applied
  recursively, as produced inside `unicodedata.normalize("NFKD", ·)`. -/
  decomp : UChar → List UChar
  /-- `true` iff `unicodedata.combining c == 0` (canonical combining class
  zero, i.e. the code point is not a combining mark). -/
  ccc0 : UChar → Bool
  /-- Per-code-point lower-case mapping of `str.lower` (may expand to several
  code points, e.g. U+0130).  The Final_Sigma context rule of `str.lower` is
  not modelled; none of the properties proved here depend on it. -/
  lowerChar : UChar → List UChar
  /-- `true` iff the code point is whitespace for `str.strip()`. -/
  isSpace : UChar → Bool

/-- Properties of the real Unicode character database used by the
idempotence and stability arguments: every code point appearing in a full
decomposition is itself decomposition-stable, and the lower-case image of a
stable non-combining code point consists of stable, non-combining,
lower-case-stable code points. -/
structure GoodUnicode (u : UnicodeData) : Prop where
  decomp_stable : ∀ c : UChar, ∀ d ∈ u.decomp c, u.decomp d = [d]
  lower_stable : ∀ d : UChar, u.decomp d = [d] → u.ccc0 d = true →
    ∀ e ∈ u.lowerChar d, u.decomp e = [e] ∧ u.ccc0 e = true ∧ u.lowerChar e = [e]

/-- `str.lower`, applied code point by code point. -/
def lowerStr (u : UnicodeData) (s : UStr) : UStr :=
  s.flatMap u.lowerChar

/-- `str.strip()`: remove leading and trailing whitespace. -/
def stripStr (u : UnicodeData) (s : UStr) : UStr :=
  ((s.dropWhile u.isSpace).reverse.dropWhile u.isSpace).reverse

/-- `normalize` (source lines 34–37):
`unicodedata.normalize("NFKD", str(text))`, then drop every code point with
`unicodedata.combining(c)` non-zero, then `.lower()`.
NFKD is modelled as the recursive compatibility decomposition; the canonical
reordering step of NFKD only permutes adjacent combining marks (code points
with non-zero combining class), all of which the very next filter removes,
so it does not affect the value of this function and is omitted. -/
def normalize (u : UnicodeData) (s : UStr) : UStr :=
  lowerStr u ((s.flatMap u.decomp).filter u.ccc0)

/-- Generic splitter: `splitOnPred p s` cuts `s` at every code point
satisfying `p`, dropping the separators and keeping empty pieces, exactly
like `re.split` on a character class or `str.split(";")`.
`n` separators always produce `n + 1` pieces. -/
def splitOnPred (p : UChar → Bool) : UStr → List UStr
  | [] => [[]]
  | c :: cs =>
    if p c then [] :: splitOnPred p cs
    else
      match splitOnPred p cs with
      | [] => [[c]]
      | s :: ss => (c :: s) :: ss

/-- `re.split(r'[.!?]', text)` (source line 49): split on the sentence
terminators `.` (46), `!` (33), `?` (63). -/
def splitSents (s : UStr) : List UStr :=
  splitOnPred (fun c => c == 46 || c == 33 || c == 63) s

/-- `str(row[lang]).split(";")` uses the semicolon (59) as separator
(source lines 45 and 141). -/
def splitSemis (s : UStr) : List UStr :=
  splitOnPred (fun c => c == 59) s

/-- The two supported languages. -/
inductive Lang where
  | PT
  | EN
deriving DecidableEq, BEq, Repr

/-- One raw row of the precursor spreadsheet: the `Dimensao` cell and the
two language cells, where `none` models a missing (NaN) cell. -/
structure RawRow where
  dimensao : UStr
  pt : Option UStr
  en : Option UStr
deriving DecidableEq, Repr

/-- The language cell of a row. -/
def RawRow.cell (r : RawRow) : Lang → Option UStr
  | Lang.PT => r.pt
  | Lang.EN => r.en

/-- `str(cell)`: a present cell is already a string; Python renders a
missing (NaN) cell as the three-letter string "nan" (110, 97, 110). -/
def cellStr : Option UStr → UStr
  | some s => s
  | none => [110, 97, 110]

/-- `load_precursors_excel` (source lines 18–23), after the required-column
check (which aborts the app and is outside this row-level model):
`df.dropna(subset=["PT", "EN"])` drops every row in which at least one of
the `PT` and `EN` cells is missing. -/
def load_precursors_excel (rows : List RawRow) : List RawRow :=
  rows.filter (fun r => r.pt.isSome && r.en.isSome)

/-- The keep-predicate the specification describes for the dictionary
loader, written from the spec for comparison with the code: a row is
dropped only when it misses both language fields, i.e. kept as soon as at
least one of the two cells is present. -/
def specKeepRow (r : RawRow) : Bool :=
  r.pt.isSome || r.en.isSome

/-- One fuzzy hit, a row of the `results` list (source lines 53–57). -/
structure MatchRecord where
  precursor : UStr
  dimensao : UStr
  idioma : Lang
  freq : Nat
deriving DecidableEq, Repr

/-- The language iteration order of the matcher (source line 44). -/
def langs : List Lang := [Lang.PT, Lang.EN]

/-- The number of sentence units of the normalized text whose
partial-similarity score against `term` meets or exceeds the threshold;
the matcher scores each unit after stripping its surrounding whitespace
(source line 50). -/
def sentenceCountSpec (u : UnicodeData) (pr : UStr → UStr → Nat)
    (threshold : Nat) (text term : UStr) : Nat :=
  (splitSents (normalize u text)).countP
    (fun s => decide (threshold ≤ pr term (stripStr u s)))

/-- `fuzzy_match_terms_count` (source lines 39–59): for every dictionary
row, language and semicolon-separated term, normalize the stripped term,
count the sentence units of the normalized text scoring at least
`threshold` against it (a running counter in the source, modelled by the
`foldl`), and emit a record exactly when the count is positive.  `pr`
stands for `fuzz.partial_ratio`. -/
def fuzzy_match_terms_count (u : UnicodeData) (pr : UStr → UStr → Nat)
    (text : UStr) (df : List RawRow) (threshold : Nat) : List MatchRecord :=
  let ntext := normalize u text
  df.flatMap fun row =>
    langs.flatMap fun lang =>
      (splitSemis (cellStr (row.cell lang))).filterMap fun t0 =>
        let term := normalize u (stripStr u t0)
        let count := (splitSents ntext).foldl
          (fun acc s => if threshold ≤ pr term (stripStr u s) then acc + 1 else acc) 0
        if 0 < count then
          some { precursor := term, dimensao := row.dimensao,
                 idioma := lang, freq := count }
        else none

/-- Outcome of the reporting step: the warning branch for an empty result
(source line 110) or the success branch carrying the grouped summary
(source lines 113–116). -/
inductive Outcome where
  | nothingFound
  | summary (rows : List (UStr × UStr × Nat))
deriving DecidableEq, Repr

/-- The distinct `(Dimensao, Precursor)` group keys, in first-occurrence
order (pandas sorts group keys; no property proved here depends on the
order of the summary rows). -/
def groupKeys (rs : List MatchRecord) : List (UStr × UStr) :=
  (rs.map (fun r => (r.dimensao, r.precursor))).dedup

/-- `resultado.groupby(["Dimensao", "Precursor"])["Frequência"].sum()`
(source line 114): one row per distinct key with the summed frequency. -/
def groupSum (rs : List MatchRecord) : List (UStr × UStr × Nat) :=
  (groupKeys rs).map fun k =>
    (k.1, k.2, ((rs.filter (fun r => (r.dimensao, r.precursor) = k)).map
      (fun r => r.freq)).sum)

/-- The reporting step (source lines 109–116): if the raw result is empty,
warn that nothing was found; otherwise filter the records to the detected
language and group them.  The emptiness test happens before the language
filter, exactly as in the source. -/
def aggregate (records : List MatchRecord) (lang : Lang) : Outcome :=
  match records with
  | [] => Outcome.nothingFound
  | _ :: _ =>
    Outcome.summary (groupSum (records.filter (fun r => decide (r.idioma = lang))))

/-- Result of `langdetect.detect(text)`: either a language-code string or a
raised exception. -/
inductive DetectResult where
  | ok (code : UStr)
  | err
deriving DecidableEq, Repr

/-- The code-point string "en". -/
def enCode : UStr := [101, 110]

/-- Language detection policy (source lines 97–101): `EN` when `detect`
returns "en", `PT` for every other return value and for any raised
exception. -/
def lang_detected (d : DetectResult) : Lang :=
  match d with
  | DetectResult.ok code => if code = enCode then Lang.EN else Lang.PT
  | DetectResult.err => Lang.PT

/-- Join a list of strings with single spaces (`" ".join(...)`). -/
def joinSpace (l : List UStr) : UStr :=
  List.intercalate [32] l

/-- `extract_text_from_pdf` (source lines 25–28): each page is modelled by
what `page.extract_text()` returns (`none` for Python `None`); the
generator keeps a page only when that value is truthy, i.e. neither `None`
nor the empty string, and the kept texts are joined with single spaces. -/
def extract_text_from_pdf (pages : List (Option UStr)) : UStr :=
  joinSpace (pages.filterMap fun p =>
    p.bind fun t => if t.isEmpty then none else some t)

/-- `extract_text_from_docx` (source lines 30–32): every paragraph's text
is joined with single spaces, with no filtering of empty paragraphs. -/
def extract_text_from_docx (paras : List UStr) : UStr :=
  joinSpace paras

/-- The extraction contract as the specification words it, for comparison
with the code: join the given texts with single spaces, skipping every
part that yields no extractable text. -/
def specJoinSkippingEmpty (parts : List UStr) : UStr :=
  joinSpace (parts.filter fun t => !t.isEmpty)

/-- One row of the presence (Sim/Não) table (source lines 143–148);
`encontrado = true` renders as "Sim" and `false` as "Não". -/
structure StatusRow where
  dimensao : UStr
  idioma : Lang
  precursor : UStr
  encontrado : Bool
deriving DecidableEq, Repr

/-- `resultado["Precursor"].str.lower().str.strip().unique().tolist()`
(source line 138): the matched precursor strings, lower-cased then
stripped, with duplicates removed. -/
def encontrados_norm (u : UnicodeData) (records : List MatchRecord) : List UStr :=
  ((records.map fun r => r.precursor).map fun s => stripStr u (lowerStr u s)).dedup

/-- `df_status` (source lines 139–149): one row per semicolon-separated
term of the detected language's cell of every dictionary row, flagged by
membership of the lower-cased stripped term in `encontrados_norm` of the
language-filtered match records. -/
def df_status (u : UnicodeData) (df : List RawRow)
    (langRecords : List MatchRecord) (lang : Lang) : List StatusRow :=
  let enc := encontrados_norm u langRecords
  df.flatMap fun row =>
    (splitSemis (cellStr (row.cell lang))).map fun t0 =>
      { dimensao := row.dimensao, idioma := lang,
        precursor := stripStr u t0,
        encontrado := decide (lowerStr u (stripStr u t0) ∈ enc) }

/-! ### Concrete data for witnesses

`u0` is a small concrete character table containing the Latin letters used
in the witnesses, the precomposed letters `Ç` (199) and `ç` (231), and the
combining cedilla (807); every other code point is decomposition-stable,
non-combining, and case-stable.  `prFull` and `prZero` are concrete stand-ins
for the scoring function: one scores every pair 100, the other 0. -/

/-- A small concrete instance of the Unicode character data. -/
def u0 : UnicodeData where
  decomp c := if c = 199 then [67, 807] else if c = 231 then [99, 807] else [c]
  ccc0 c := c != 807
  lowerChar c := if c = 67 then [99] else if c = 199 then [231] else [c]
  isSpace c := c == 32

/-- A scoring function giving every pair the maximal score 100. -/
def prFull : UStr → UStr → Nat := fun _ _ => 100

/-- A scoring function giving every pair the minimal score 0. -/
def prZero : UStr → UStr → Nat := fun _ _ => 0

/-- A dictionary row with PT term "a" and EN term "b". -/
def rowAB : RawRow := { dimensao := [68], pt := some [97], en := some [98] }

/-- A dictionary row whose PT term "ça" (231, 97) carries a diacritic and
whose EN term is "e". -/
def rowAcc : RawRow := { dimensao := [68], pt := some [231, 97], en := some [101] }

/-- A dictionary row with PT term "d" and a missing EN cell. -/
def rowPTonly : RawRow := { dimensao := [100], pt := some [97], en := none }

/-- `u0` satisfies the Unicode-database properties. -/
lemma u0_good : GoodUnicode u0 := by
  constructor
  · intro c d hd
    by_cases h1 : c = 199
    · subst h1
      simp [u0] at hd
      rcases hd with rfl | rfl <;> decide
    · by_cases h2 : c = 231
      · subst h2
        simp [u0] at hd
        rcases hd with rfl | rfl <;> decide
      · simp [u0, h1, h2] at hd
        subst hd
        simp [u0, h1, h2]
  · intro d hdec hccc e he
    by_cases h1 : d = 67
    · subst h1
      simp [u0] at he
      subst he
      refine ⟨by decide, by decide, by decide⟩
    · by_cases h2 : d = 199
      · subst h2
        exact absurd hdec (by decide)
      · simp [u0, h1, h2] at he
        subst he
        exact ⟨hdec, hccc, by simp [u0, h1, h2]⟩

/-! ### Helper lemmas -/

/-- The running counter of the matcher's inner loop counts exactly the
elements satisfying the condition. -/
lemma foldl_count_eq {α : Type} (q : α → Prop) [DecidablePred q]
    (l : List α) (n : Nat) :
    l.foldl (fun acc s => if q s then acc + 1 else acc) n
      = n + l.countP (fun s => decide (q s)) := by
  induction l generalizing n with
  | nil => simp
  | cons a l ih =>
    simp only [List.foldl_cons, List.countP_cons, ih]
    by_cases h : q a
    · simp only [h, if_true, decide_eq_true_eq]
      omega
    · simp [h]

/-- Membership in the matcher's output, characterized. -/
lemma mem_fuzzy_iff {u : UnicodeData} {pr : UStr → UStr → Nat}
    {text : UStr} {df : List RawRow} {th : Nat} {rec : MatchRecord} :
    rec ∈ fuzzy_match_terms_count u pr text df th ↔
      ∃ row ∈ df, ∃ lang ∈ langs, ∃ t0 ∈ splitSemis (cellStr (row.cell lang)),
        0 < sentenceCountSpec u pr th text (normalize u (stripStr u t0)) ∧
        rec = { precursor := normalize u (stripStr u t0),
                dimensao := row.dimensao, idioma := lang,
                freq := sentenceCountSpec u pr th text (normalize u (stripStr u t0)) } := by
  unfold fuzzy_match_terms_count sentenceCountSpec
  simp only [List.mem_flatMap, List.mem_filterMap]
  constructor
  · rintro ⟨row, hrow, lang, hlang, t0, ht0, hrec⟩
    rw [foldl_count_eq] at hrec
    simp only [Nat.zero_add] at hrec
    by_cases hpos :
        0 < (splitSents (normalize u text)).countP
          (fun s => decide (th ≤ pr (normalize u (stripStr u t0)) (stripStr u s)))
    · rw [if_pos hpos] at hrec
      exact ⟨row, hrow, lang, hlang, t0, ht0, hpos, (Option.some.injEq _ _ ▸ hrec).symm⟩
    · rw [if_neg hpos] at hrec
      exact absurd hrec (Option.noConfusion)
  · rintro ⟨row, hrow, lang, hlang, t0, ht0, hpos, rfl⟩
    refine ⟨row, hrow, lang, hlang, t0, ht0, ?_⟩
    rw [foldl_count_eq]
    simp only [Nat.zero_add]
    rw [if_pos hpos]

/-- Every emitted record has a positive occurrence count. -/
lemma freq_pos_of_mem {u : UnicodeData} {pr : UStr → UStr → Nat}
    {text : UStr} {df : List RawRow} {th : Nat} {rec : MatchRecord}
    (h : rec ∈ fuzzy_match_terms_count u pr text df th) : 0 < rec.freq := by
  rcases mem_fuzzy_iff.mp h with ⟨row, _, lang, _, t0, _, hpos, rfl⟩
  exact hpos

/-- Every emitted record's precursor field is a `normalize` image. -/
lemma precursor_normalized_of_mem {u : UnicodeData} {pr : UStr → UStr → Nat}
    {text : UStr} {df : List RawRow} {th : Nat} {rec : MatchRecord}
    (h : rec ∈ fuzzy_match_terms_count u pr text df th) :
    ∃ t0, rec.precursor = normalize u (stripStr u t0) := by
  rcases mem_fuzzy_iff.mp h with ⟨row, _, lang, _, t0, _, _, rfl⟩
  exact ⟨t0, rfl⟩

/-- A `flatMap` whose function fixes every element of the list is the
identity on that list. -/
lemma flatMap_id_of {f : UChar → List UChar} :
    ∀ {l : UStr}, (∀ x ∈ l, f x = [x]) → l.flatMap f = l := by
  intro l
  induction l with
  | nil => intro _; rfl
  | cons a l ih =>
    intro h
    have ha := h a (List.mem_cons_self a l)
    have hl := ih (fun x hx => h x (List.mem_cons_of_mem a hx))
    simp [ha, hl]

/-- Every code point of a `normalize` image is decomposition-stable,
non-combining, and lower-case-stable. -/
lemma normalize_mem_stable {u : UnicodeData} (hU : GoodUnicode u)
    {s : UStr} {x : UChar} (hx : x ∈ normalize u s) :
    u.decomp x = [x] ∧ u.ccc0 x = true ∧ u.lowerChar x = [x] := by
  unfold normalize lowerStr at hx
  rcases List.mem_flatMap.mp hx with ⟨d, hd, hxe⟩
  rcases List.mem_filter.mp hd with ⟨hdm, hdc⟩
  rcases List.mem_flatMap.mp hdm with ⟨c, _, hdd⟩
  exact hU.lower_stable d (hU.decomp_stable c d hdd) hdc x hxe

/-- `normalize` fixes any string all of whose code points are stable. -/
lemma normalize_fixed {u : UnicodeData} {l : UStr}
    (h : ∀ x ∈ l, u.decomp x = [x] ∧ u.ccc0 x = true ∧ u.lowerChar x = [x]) :
    normalize u l = l := by
  unfold normalize lowerStr
  rw [flatMap_id_of (fun x hx => (h x hx).1),
      List.filter_eq_self.mpr (fun x hx => (h x hx).2.1)]
  exact flatMap_id_of (fun x hx => (h x hx).2.2)

/-- Stripping only removes elements: membership is preserved downward. -/
lemma mem_of_mem_stripStr {u : UnicodeData} {s : UStr} {x : UChar}
    (h : x ∈ stripStr u s) : x ∈ s := by
  unfold stripStr at h
  have h1 := List.mem_reverse.mp h
  have h2 := (List.dropWhile_sublist u.isSpace).mem h1
  have h3 := List.mem_reverse.mp h2
  exact (List.dropWhile_sublist u.isSpace).mem h3

/-- Membership in the presence table, characterized. -/
lemma mem_df_status_iff {u : UnicodeData} {df : List RawRow}
    {lrecs : List MatchRecord} {lang : Lang} {r : StatusRow} :
    r ∈ df_status u df lrecs lang ↔
      ∃ row ∈ df, ∃ t0 ∈ splitSemis (cellStr (row.cell lang)),
        r = { dimensao := row.dimensao, idioma := lang,
              precursor := stripStr u t0,
              encontrado :=
                decide (lowerStr u (stripStr u t0) ∈ encontrados_norm u lrecs) } := by
  unfold df_status
  simp only [List.mem_flatMap, List.mem_map]
  constructor
  · rintro ⟨row, hrow, t0, ht0, rfl⟩
    exact ⟨row, hrow, t0, ht0, rfl⟩
  · rintro ⟨row, hrow, t0, ht0, rfl⟩
    exact ⟨row, hrow, t0, ht0, rfl⟩

/-! ### Claim theorems -/

/-- C1: for every document text, dictionary row, language and term of that
language's semicolon-delimited list, the occurrence count carried by the
fuzzy matcher's records is exactly the number of sentence units — the
pieces of the normalized text split at `.`, `!`, `?` — whose
partial-similarity score against the normalized term meets or exceeds the
threshold: every emitted record's `freq` equals that sentence count for its
term, and whenever the sentence count of a term is positive the matcher
emits precisely the record carrying it. -/
theorem c1_occurrence_count_correct (u : UnicodeData) (pr : UStr → UStr → Nat)
    (text : UStr) (df : List RawRow) (th : Nat) :
    (∀ rec ∈ fuzzy_match_terms_count u pr text df th,
        rec.freq = sentenceCountSpec u pr th text rec.precursor) ∧
    (∀ row ∈ df, ∀ lang ∈ langs, ∀ t0 ∈ splitSemis (cellStr (row.cell lang)),
        0 < sentenceCountSpec u pr th text (normalize u (stripStr u t0)) →
        ({ precursor := normalize u (stripStr u t0), dimensao := row.dimensao,
           idioma := lang,
           freq := sentenceCountSpec u pr th text (normalize u (stripStr u t0)) }
          : MatchRecord) ∈ fuzzy_match_terms_count u pr text df th) := by
  constructor
  · intro rec hrec
    rcases mem_fuzzy_iff.mp hrec with ⟨row, _, lang, _, t0, _, _, rfl⟩
    rfl
  · intro row hrow lang hlang t0 ht0 hpos
    exact mem_fuzzy_iff.mpr ⟨row, hrow, lang, hlang, t0, ht0, hpos, rfl⟩

/-- Witness for C1 at a concrete document and dictionary. -/
theorem c1_occurrence_count_correct_witness :
    ((⟨[99, 97], [68], Lang.PT, 1⟩ : MatchRecord).freq
        = sentenceCountSpec u0 prFull 75 [120]
            (⟨[99, 97], [68], Lang.PT, 1⟩ : MatchRecord).precursor) ∧
    ({ precursor := normalize u0 (stripStr u0 [231, 97]),
       dimensao := rowAcc.dimensao, idioma := Lang.PT,
       freq := sentenceCountSpec u0 prFull 75 [120]
                 (normalize u0 (stripStr u0 [231, 97])) } : MatchRecord)
      ∈ fuzzy_match_terms_count u0 prFull [120] [rowAcc] 75 :=
  ⟨(c1_occurrence_count_correct u0 prFull [120] [rowAcc] 75).1
      ⟨[99, 97], [68], Lang.PT, 1⟩ (by decide),
   (c1_occurrence_count_correct u0 prFull [120] [rowAcc] 75).2
      rowAcc (by decide) Lang.PT (by simp [langs]) [231, 97] (by decide) (by decide)⟩

/-- C2 counterexample: the claim predicts that a row carrying a non-empty
PT term but a missing EN cell is kept at load time; the code's
`dropna(subset=["PT", "EN"])` drops it. -/
theorem c2_load_drop_counterexample :
    load_precursors_excel [rowPTonly] = [] ∧ specKeepRow rowPTonly = true := by
  decide

/-- C2 amended: at dictionary load time exactly the rows missing at least
one of the PT and EN cells are dropped — a row is loaded iff it occurs in
the source and both its language cells are present. -/
theorem c2_load_keeps_iff_both_present (rows : List RawRow) (r : RawRow) :
    r ∈ load_precursors_excel rows ↔
      r ∈ rows ∧ r.pt.isSome = true ∧ r.en.isSome = true := by
  simp [load_precursors_excel, List.mem_filter, Bool.and_eq_true, and_assoc]

/-- Witness for the amended C2 at a concrete row list. -/
theorem c2_load_keeps_iff_both_present_witness :
    rowAB ∈ load_precursors_excel [rowPTonly, rowAB] ↔
      rowAB ∈ [rowPTonly, rowAB] ∧ rowAB.pt.isSome = true ∧ rowAB.en.isSome = true :=
  c2_load_keeps_iff_both_present [rowPTonly, rowAB] rowAB

/-- C3 counterexample: with the one-row dictionary `rowAB` (PT term "a",
EN term "b") and detected language PT, the presence table built by the code
holds exactly one row, for the PT term, and no row at all for the EN term
"b" — while the claim demands one row per (category, language, term) triple
of both languages. -/
theorem c3_presence_table_counterexample :
    df_status u0 [rowAB]
        ((fuzzy_match_terms_count u0 prFull [120] [rowAB] 75).filter
          (fun r => decide (r.idioma = Lang.PT))) Lang.PT
      = [⟨[68], Lang.PT, [97], true⟩] ∧
    splitSemis (cellStr (rowAB.cell Lang.EN)) = [[98]] ∧
    (∀ r ∈ df_status u0 [rowAB]
        ((fuzzy_match_terms_count u0 prFull [120] [rowAB] 75).filter
          (fun r => decide (r.idioma = Lang.PT))) Lang.PT,
      ¬r.idioma = Lang.EN) := by
  decide

/-- C3 amended: the presence table contains exactly one row per term of the
detected language's semicolon-delimited lists — its (category, language,
term) triples are precisely the dictionary's triples for the detected
language, in dictionary order and independent of the match records — and
the other language's terms never appear. -/
theorem c3_presence_table_detected_language_only (u : UnicodeData)
    (df : List RawRow) (records : List MatchRecord) (lang : Lang) :
    (df_status u df records lang).map (fun r => (r.dimensao, r.idioma, r.precursor))
      = df.flatMap (fun row => (splitSemis (cellStr (row.cell lang))).map
          (fun t0 => (row.dimensao, lang, stripStr u t0))) := by
  unfold df_status
  rw [List.map_flatMap]
  refine List.flatMap_congr ?_
  intro row _
  rw [List.map_map]
  rfl

/-- C4: raising the threshold never adds a match — whenever a term of a
dictionary row receives its record at the higher threshold `t2`, the same
(term, category, language) receives a record at any lower threshold
`t1 ≤ t2`, and its occurrence count at `t1` is at least the count at
`t2`. -/
theorem c4_threshold_monotone (u : UnicodeData) (pr : UStr → UStr → Nat)
    (text : UStr) (df : List RawRow) (t1 t2 : Nat)
    (_h60 : 60 ≤ t1) (h12 : t1 ≤ t2) (_h100 : t2 ≤ 100)
    (row : RawRow) (hrow : row ∈ df) (lang : Lang) (hlang : lang ∈ langs)
    (t0 : UStr) (ht0 : t0 ∈ splitSemis (cellStr (row.cell lang)))
    (hm : ({ precursor := normalize u (stripStr u t0), dimensao := row.dimensao,
             idioma := lang,
             freq := sentenceCountSpec u pr t2 text (normalize u (stripStr u t0)) }
            : MatchRecord) ∈ fuzzy_match_terms_count u pr text df t2) :
    ({ precursor := normalize u (stripStr u t0), dimensao := row.dimensao,
       idioma := lang,
       freq := sentenceCountSpec u pr t1 text (normalize u (stripStr u t0)) }
        : MatchRecord) ∈ fuzzy_match_terms_count u pr text df t1 ∧
    sentenceCountSpec u pr t2 text (normalize u (stripStr u t0))
      ≤ sentenceCountSpec u pr t1 text (normalize u (stripStr u t0)) := by
  have hmono : sentenceCountSpec u pr t2 text (normalize u (stripStr u t0))
      ≤ sentenceCountSpec u pr t1 text (normalize u (stripStr u t0)) := by
    unfold sentenceCountSpec
    refine List.countP_mono_left ?_
    intro s _ hs
    simp only [decide_eq_true_eq] at hs ⊢
    omega
  have hpos : 0 < sentenceCountSpec u pr t2 text (normalize u (stripStr u t0)) := by
    have := freq_pos_of_mem hm
    exact this
  refine ⟨mem_fuzzy_iff.mpr ⟨row, hrow, lang, hlang, t0, ht0, ?_, rfl⟩, hmono⟩
  omega

/-- Witness for C4 at thresholds 60 and 100. -/
theorem c4_threshold_monotone_witness :
    ({ precursor := normalize u0 (stripStr u0 [231, 97]),
       dimensao := rowAcc.dimensao, idioma := Lang.PT,
       freq := sentenceCountSpec u0 prFull 60 [120]
                 (normalize u0 (stripStr u0 [231, 97])) } : MatchRecord)
      ∈ fuzzy_match_terms_count u0 prFull [120] [rowAcc] 60 ∧
    sentenceCountSpec u0 prFull 100 [120] (normalize u0 (stripStr u0 [231, 97]))
      ≤ sentenceCountSpec u0 prFull 60 [120] (normalize u0 (stripStr u0 [231, 97])) :=
  c4_threshold_monotone u0 prFull [120] [rowAcc] 60 100
    (by decide) (by decide) (by decide)
    rowAcc (by decide) Lang.PT (by simp [langs]) [231, 97] (by decide) (by decide)

/-- C5: when no dictionary term scores at or above the threshold in any
sentence unit, the matcher's record sequence is empty — a zero-count term
produces no record at all — and the reporting step takes the distinct
"nothing found" outcome rather than an empty-but-successful summary. -/
theorem c5_no_match_reports_nothing_found (u : UnicodeData)
    (pr : UStr → UStr → Nat) (text : UStr) (df : List RawRow) (th : Nat)
    (lang : Lang)
    (h : ∀ row ∈ df, ∀ lg ∈ langs, ∀ t0 ∈ splitSemis (cellStr (row.cell lg)),
         ∀ s ∈ splitSents (normalize u text),
         pr (normalize u (stripStr u t0)) (stripStr u s) < th) :
    fuzzy_match_terms_count u pr text df th = [] ∧
    aggregate (fuzzy_match_terms_count u pr text df th) lang
      = Outcome.nothingFound := by
  have hempty : fuzzy_match_terms_count u pr text df th = [] := by
    apply List.eq_nil_iff_forall_not_mem.mpr
    intro rec hrec
    rcases mem_fuzzy_iff.mp hrec with ⟨row, hrow, lg, hlg, t0, ht0, hpos, rfl⟩
    unfold sentenceCountSpec at hpos
    have hzero : (splitSents (normalize u text)).countP
        (fun s => decide (th ≤ pr (normalize u (stripStr u t0)) (stripStr u s)))
          = 0 := by
      apply List.countP_eq_zero.mpr
      intro s hs
      simp only [decide_eq_true_eq]
      have := h row hrow lg hlg t0 ht0 s hs
      omega
    omega
  exact ⟨hempty, by rw [hempty]; rfl⟩

/-- Witness for C5 with a scoring function below the threshold
everywhere. -/
theorem c5_no_match_reports_nothing_found_witness :
    fuzzy_match_terms_count u0 prZero [120] [rowAcc] 75 = [] ∧
    aggregate (fuzzy_match_terms_count u0 prZero [120] [rowAcc] 75) Lang.PT
      = Outcome.nothingFound :=
  c5_no_match_reports_nothing_found u0 prZero [120] [rowAcc] 75 Lang.PT
    (by intro row hrow lg hlg t0 ht0 s hs; simp [prZero])

/-- C6: language detection always resolves to one of the two labels — EN
exactly when the detector returns the code "en", and PT in every other
case, including when the detector raises; no detection failure escapes. -/
theorem c6_language_label_total (d : DetectResult) :
    (lang_detected d = Lang.EN ∨ lang_detected d = Lang.PT) ∧
    (lang_detected d = Lang.EN ↔ d = DetectResult.ok enCode) := by
  cases d with
  | ok code =>
    by_cases h : code = enCode <;> simp [lang_detected, h]
  | err => simp [lang_detected]

/-- Witness for C6 at the English detection result. -/
theorem c6_language_label_total_witness :
    (lang_detected (DetectResult.ok enCode) = Lang.EN ∨
        lang_detected (DetectResult.ok enCode) = Lang.PT) ∧
    (lang_detected (DetectResult.ok enCode) = Lang.EN ↔
        DetectResult.ok enCode = DetectResult.ok enCode) :=
  c6_language_label_total (DetectResult.ok enCode)

/-- C7 counterexample: on a document whose paragraphs are "a", "", "b",
the word-processor extractor of the code joins all three paragraphs and
yields "a  b" (two spaces), while the claimed behaviour — skip parts with
no extractable text, join with single spaces — yields "a b". -/
theorem c7_extractor_counterexample :
    extract_text_from_docx [[97], [], [98]] = [97, 32, 32, 98] ∧
    specJoinSkippingEmpty [[97], [], [98]] = [97, 32, 98] := by
  decide

/-- C7 amended: the PDF extractor joins the per-page texts with single
spaces skipping every page yielding no extractable text, as claimed; the
word-processor extractor joins every paragraph's text with single spaces
without skipping empty paragraphs. -/
theorem c7_extractors_join_behaviour :
    (∀ pages : List (Option UStr),
        extract_text_from_pdf pages = specJoinSkippingEmpty (pages.filterMap id)) ∧
    (∀ paras : List UStr, extract_text_from_docx paras = joinSpace paras) := by
  constructor
  · intro pages
    unfold extract_text_from_pdf specJoinSkippingEmpty
    congr 1
    induction pages with
    | nil => rfl
    | cons p ps ih =>
      cases p with
      | none => simpa using ih
      | some t =>
        by_cases h : t = []
        · subst h
          simpa using ih
        · simpa [h] using ih
  · intro paras
    rfl

/-- C8: normalization is idempotent (and, being a Lean function, total):
under the stated properties of the Unicode character database, normalizing
twice gives the same string as normalizing once, for every string. -/
theorem c8_normalize_idempotent (u : UnicodeData) (hU : GoodUnicode u)
    (s : UStr) : normalize u (normalize u s) = normalize u s :=
  normalize_fixed (fun _ hx => normalize_mem_stable hU hx)

/-- Witness for C8 on the accented string "Ça". -/
theorem c8_normalize_idempotent_witness :
    GoodUnicode u0 ∧
    normalize u0 (normalize u0 [199, 97]) = normalize u0 [199, 97] :=
  ⟨u0_good, c8_normalize_idempotent u0 u0_good [199, 97]⟩

/-- C9: when the record sequence is non-empty but no record carries the
detected language, the emptiness test — which the code runs before the
language filter — takes the success branch: the outcome is a summary with
zero rows (zero unique precursors), not the "nothing found" outcome. -/
theorem c9_nonempty_wrong_language_summary (records : List MatchRecord)
    (lang : Lang) (hne : records ≠ [])
    (hmis : ∀ r ∈ records, r.idioma ≠ lang) :
    aggregate records lang = Outcome.summary [] ∧
    aggregate records lang ≠ Outcome.nothingFound := by
  rcases records with _ | ⟨r, rs⟩
  · exact absurd rfl hne
  · have hfil : (r :: rs).filter (fun x => decide (x.idioma = lang)) = [] := by
      apply List.filter_eq_nil_iff.mpr
      intro a ha
      simp only [decide_eq_true_eq]
      exact hmis a ha
    constructor
    · unfold aggregate
      rw [hfil]
      rfl
    · unfold aggregate
      simp

/-- Witness for C9 on a one-record EN sequence with detected language
PT. -/
theorem c9_nonempty_wrong_language_summary_witness :
    aggregate [⟨[97], [98], Lang.EN, 1⟩] Lang.PT = Outcome.summary [] ∧
    aggregate [⟨[97], [98], Lang.EN, 1⟩] Lang.PT ≠ Outcome.nothingFound :=
  c9_nonempty_wrong_language_summary [⟨[97], [98], Lang.EN, 1⟩] Lang.PT
    (by decide) (by decide)

/-- C10: a dictionary term whose lower-cased trimmed form still carries a
decomposable or combining code point (a diacritical mark) is flagged "Não"
in the presence table even when the term produced a match record: the
matched precursors are stored fully normalized, so the accent-carrying
comparison key can never occur among them.  The presence row for the term
exists and carries the flag false, and every presence row for that term
text carries false. -/
theorem c10_accented_term_flagged_not_found (u : UnicodeData)
    (hU : GoodUnicode u) (pr : UStr → UStr → Nat) (text : UStr)
    (df : List RawRow) (th : Nat) (lang : Lang) (row : RawRow) (t0 : UStr)
    (hrow : row ∈ df) (ht0 : t0 ∈ splitSemis (cellStr (row.cell lang)))
    (_hmatch : ∃ rec ∈ fuzzy_match_terms_count u pr text df th,
        rec.precursor = normalize u (stripStr u t0) ∧ rec.idioma = lang)
    (hacc : ∃ c ∈ lowerStr u (stripStr u t0),
        ¬(u.decomp c = [c] ∧ u.ccc0 c = true)) :
    (⟨row.dimensao, lang, stripStr u t0, false⟩ : StatusRow)
        ∈ df_status u df
            ((fuzzy_match_terms_count u pr text df th).filter
              (fun rec => decide (rec.idioma = lang))) lang ∧
    ∀ r ∈ df_status u df
            ((fuzzy_match_terms_count u pr text df th).filter
              (fun rec => decide (rec.idioma = lang))) lang,
        r.precursor = stripStr u t0 → r.encontrado = false := by
  have hkey : lowerStr u (stripStr u t0) ∉
      encontrados_norm u
        ((fuzzy_match_terms_count u pr text df th).filter
          (fun rec => decide (rec.idioma = lang))) := by
    intro hmem
    rcases hacc with ⟨c, hc, hcbad⟩
    unfold encontrados_norm at hmem
    rw [List.mem_dedup] at hmem
    rcases List.mem_map.mp hmem with ⟨p, hp, hpe⟩
    rcases List.mem_map.mp hp with ⟨rec, hrec, rfl⟩
    have hrecF : rec ∈ fuzzy_match_terms_count u pr text df th :=
      (List.mem_filter.mp hrec).1
    rcases precursor_normalized_of_mem hrecF with ⟨t1, hprec⟩
    have hstab : ∀ x ∈ rec.precursor,
        u.decomp x = [x] ∧ u.ccc0 x = true ∧ u.lowerChar x = [x] := by
      intro x hx
      rw [hprec] at hx
      exact normalize_mem_stable hU hx
    have hlow : lowerStr u rec.precursor = rec.precursor :=
      flatMap_id_of (fun x hx => (hstab x hx).2.2)
    rw [← hpe] at hc
    rw [hlow] at hc
    have := hstab c (mem_of_mem_stripStr hc)
    exact hcbad ⟨this.1, this.2.1⟩
  have hflag : decide (lowerStr u (stripStr u t0) ∈
      encontrados_norm u
        ((fuzzy_match_terms_count u pr text df th).filter
          (fun rec => decide (rec.idioma = lang)))) = false :=
    decide_eq_false hkey
  constructor
  · apply mem_df_status_iff.mpr
    refine ⟨row, hrow, t0, ht0, ?_⟩
    rw [hflag]
  · intro r hr hpre
    rcases mem_df_status_iff.mp hr with ⟨row2, hrow2, t2, ht2, rfl⟩
    have hpre2 : stripStr u t2 = stripStr u t0 := hpre
    show decide (lowerStr u (stripStr u t2) ∈
      encontrados_norm u
        ((fuzzy_match_terms_count u pr text df th).filter
          (fun rec => decide (rec.idioma = lang)))) = false
    rw [hpre2]
    exact hflag

/-- Witness for C10 on the accented PT term "ça" matched in full. -/
theorem c10_accented_term_flagged_not_found_witness :
    (⟨rowAcc.dimensao, Lang.PT, stripStr u0 [231, 97], false⟩ : StatusRow)
        ∈ df_status u0 [rowAcc]
            ((fuzzy_match_terms_count u0 prFull [120] [rowAcc] 75).filter
              (fun rec => decide (rec.idioma = Lang.PT))) Lang.PT ∧
    ∀ r ∈ df_status u0 [rowAcc]
            ((fuzzy_match_terms_count u0 prFull [120] [rowAcc] 75).filter
              (fun rec => decide (rec.idioma = Lang.PT))) Lang.PT,
        r.precursor = stripStr u0 [231, 97] → r.encontrado = false :=
  c10_accented_term_flagged_not_found u0 u0_good prFull [120] [rowAcc] 75
    Lang.PT rowAcc [231, 97] (by decide) (by decide) (by decide) (by decide)

end Precursores
